import Mathlib

/-!
Shallow embedding of the Pick Decision Engine of
`src/backend/services/ml_bot_service.py` (FlashDraft).

Conventions of the embedding:
* Python dictionary values that a card may carry are modelled by `PyVal`
  (a number, a string, a list of strings, or Python `None`).
* A card dictionary is modelled by `Card`: one `Option PyVal` per key the
  service reads (`cmc`, `type_line`, `rarity`, `power`, `toughness`,
  `color_identity`, `oracle_text`); `none` means the key is absent.
* Machine floats are modelled by `ℚ`; fallible Python operations
  (`float(x)`, `str.lower`, `set(x)`, dictionary lookup with an unhashable
  key) return `Except String _`, with the error carrying the Python
  exception class name.
* Random draws (`random.uniform`, `np.random.normal`, `random.random`,
  the draw inside `random.choices`) are passed in as explicit rational
  arguments: one argument per draw the source performs.
-/

/-- A Python value that may appear in a card dictionary: a number
(`int`/`float`), a string, a list of strings, or `None`. -/
inductive PyVal where
  | pnum (q : ℚ)
  | pstr (s : String)
  | plist (l : List String)
  | pnone
deriving DecidableEq

/-- A card dictionary, restricted to the keys the service reads.
`none` models an absent key. Field order: `cmc`, `type_line`, `rarity`,
`power`, `toughness`, `color_identity`, `oracle_text`. -/
structure Card where
  cmc : Option PyVal
  type_line : Option PyVal
  rarity : Option PyVal
  power : Option PyVal
  toughness : Option PyVal
  color_identity : Option PyVal
  oracle_text : Option PyVal

/-- Value of a list of decimal digit characters read left to right. -/
def digitsToNat (ds : List Char) : ℕ :=
  ds.foldl (fun n c => n * 10 + (c.toNat - 48)) 0

/-- Decimal string accepted by Python `float`: optional sign, digits,
optionally a dot and more digits, at least one digit overall. -/
def parsePyFloat (s : String) : Option ℚ :=
  let cs := s.data
  let neg := match cs with
    | '-' :: _ => true
    | _ => false
  let body := match cs with
    | '-' :: r => r
    | '+' :: r => r
    | r => r
  let ip := body.takeWhile Char.isDigit
  let rest := body.dropWhile Char.isDigit
  match rest with
  | [] =>
      if ip.isEmpty then none
      else some (if neg then -(digitsToNat ip : ℚ) else (digitsToNat ip : ℚ))
  | '.' :: fp =>
      if fp.all Char.isDigit && !(ip.isEmpty && fp.isEmpty) then
        let q : ℚ := (digitsToNat ip : ℚ) + (digitsToNat fp : ℚ) / (10 : ℚ) ^ fp.length
        some (if neg then -q else q)
      else none
  | _ => none

/-- Python `float(x)`: numbers pass through, strings are parsed
(`ValueError` on failure), lists and `None` raise `TypeError`. -/
def pyFloat : PyVal → Except String ℚ
  | .pnum q => .ok q
  | .pstr s =>
      match parsePyFloat s with
      | some q => .ok q
      | none => .error "ValueError"
  | .plist _ => .error "TypeError"
  | .pnone => .error "TypeError"

/-- ASCII lowercase of a string, character by character. -/
def lowerString (s : String) : String := String.mk (s.data.map Char.toLower)

/-- Python `x.lower()`: only defined on strings; anything else raises
`AttributeError`. -/
def pyLower : PyVal → Except String String
  | .pstr s => .ok (lowerString s)
  | _ => .error "AttributeError"

/-- Python substring test `needle in hay` on strings. -/
def strContainsSub (hay needle : String) : Bool :=
  hay.data.tails.any (fun t => needle.data.isPrefixOf t)

/-- Python `set(x)`: a list of strings gives the set of its elements, a
string gives the set of its characters; numbers and `None` are not
iterable and raise `TypeError`. -/
def pySet : PyVal → Except String (Finset String)
  | .plist l => .ok l.toFinset
  | .pstr s => .ok (s.data.map Char.toString).toFinset
  | _ => .error "TypeError"

/-- `rarity_map.get(rarity, 1)` in `extract_features` (source lines
81-83): string keys are looked up with default 1, other hashable values
(numbers, `None`) miss and give the default, and an unhashable list key
raises `TypeError`. -/
def rarityMapGet : PyVal → Except String ℚ
  | .plist _ => .error "TypeError"
  | .pstr s =>
      .ok (if s = "common" then 1 else if s = "uncommon" then 2
           else if s = "rare" then 3 else if s = "mythic" then 4 else 1)
  | _ => .ok 1

/-- The `try: float(...) except (ValueError, TypeError): 0.0` pattern used
for power and toughness in `extract_features` (source lines 86-96). -/
def floatOrZero (v : PyVal) : ℚ :=
  match pyFloat v with
  | .ok q => q
  | .error _ => 0

/-- `len(color_identity) if isinstance(color_identity, list) else 0`
(source line 100): the length of the list, duplicates included. -/
def colorCountFeature : PyVal → ℚ
  | .plist l => (l.length : ℚ)
  | _ => 0

/-- `MLBotService.extract_features` (source lines 59-102): the 11-entry
feature vector. Evaluation order and fallibility follow the source:
`float(card.get('cmc', 0))` and `card.get('type_line', '').lower()` are
unguarded, as is the rarity dictionary lookup; power and toughness are
guarded by `try/except`; the color count never raises. -/
def extract_features (card : Card) : Except String (List ℚ) := do
  let cmc ← pyFloat (card.cmc.getD (.pnum 0))
  let type_line ← pyLower (card.type_line.getD (.pstr ""))
  let rarityScore ← rarityMapGet (card.rarity.getD (.pstr "common"))
  let power := floatOrZero (card.power.getD (.pnum 0))
  let toughness := floatOrZero (card.toughness.getD (.pnum 0))
  let numColors := colorCountFeature (card.color_identity.getD (.plist []))
  pure [cmc,
        if strContainsSub type_line "creature" then 1 else 0,
        if strContainsSub type_line "instant" then 1 else 0,
        if strContainsSub type_line "sorcery" then 1 else 0,
        if strContainsSub type_line "enchantment" then 1 else 0,
        if strContainsSub type_line "artifact" then 1 else 0,
        if strContainsSub type_line "land" then 1 else 0,
        rarityScore, power, toughness, numColors]

/-- A `BOT_PERSONALITIES` entry (source lines 260-289): name, skill
level, randomness, rare bias, color commitment. -/
structure BotConfig where
  name : String
  skill_level : ℚ
  randomness : ℚ
  rare_bias : ℚ
  color_commitment : ℚ

/-- The `bronze` personality configuration. -/
def bronzeBot : BotConfig := ⟨"Bronze Bot", 0.3, 0.4, 1.5, 0.5⟩

/-- The `silver` personality configuration. -/
def silverBot : BotConfig := ⟨"Silver Bot", 0.5, 0.3, 1.2, 0.7⟩

/-- The `gold` personality configuration. -/
def goldBot : BotConfig := ⟨"Gold Bot", 0.7, 0.2, 1.0, 0.85⟩

/-- The `mythic` personality configuration. -/
def mythicBot : BotConfig := ⟨"Mythic Bot", 0.9, 0.1, 0.9, 0.95⟩

/-- The `BOT_PERSONALITIES` dictionary as a lookup (source lines
260-289). -/
def BOT_PERSONALITIES (p : String) : Option BotConfig :=
  if p = "bronze" then some bronzeBot
  else if p = "silver" then some silverBot
  else if p = "gold" then some goldBot
  else if p = "mythic" then some mythicBot
  else none

/-- `np.clip(x, lo, hi)`. -/
def npClip (x lo hi : ℚ) : ℚ := min hi (max lo x)

/-- `rarity_scores.get(card.get('rarity', 'common'), 40)` in
`_fallback_evaluation` (source lines 180-187): string keys are looked up
with default 40, other hashable values miss and give the default, an
unhashable list key raises `TypeError`. -/
def rarityScoresGet : PyVal → Except String ℚ
  | .plist _ => .error "TypeError"
  | .pstr s =>
      .ok (if s = "common" then 40 else if s = "uncommon" then 55
           else if s = "rare" then 70 else if s = "mythic" then 85 else 40)
  | _ => .ok 40

/-- `personality_multipliers.get(bot_personality, 1.0)` in
`_fallback_evaluation` (source lines 199-206). -/
def personality_multipliers (p : String) : ℚ :=
  if p = "bronze" then 0.8 else if p = "silver" then 0.9
  else if p = "gold" then 1.0 else if p = "mythic" then 1.1 else 1.0

/-- The removal keywords scanned by `_fallback_evaluation` (source line
195). -/
def removalWords : List String := ["destroy", "exile", "damage", "counter"]

/-- `MLBotService._fallback_evaluation` (source lines 177-211). `u` is
the `random.uniform(-10, 10)` draw. -/
def _fallback_evaluation (card : Card) (bot_personality : String) (u : ℚ) :
    Except String ℚ := do
  let score ← rarityScoresGet (card.rarity.getD (.pstr "common"))
  let type_line ← pyLower (card.type_line.getD (.pstr ""))
  let score := if strContainsSub type_line "creature" then score + 5 else score
  let oracle_text ← pyLower (card.oracle_text.getD (.pstr ""))
  let score := if removalWords.any (fun w => strContainsSub oracle_text w)
               then score + 10 else score
  let score := score * personality_multipliers bot_personality
  let score := score + u
  pure (npClip score 0 100)

/-- `card.get('rarity') in ['rare', 'mythic']` (source line 156). -/
def rareOrMythicCheck (card : Card) : Bool :=
  decide (card.rarity = some (PyVal.pstr "rare") ∨
          card.rarity = some (PyVal.pstr "mythic"))

/-- `MLBotService._apply_personality` (source lines 145-175). `context`
is `none` when no draft context with a `picked_colors` key is supplied,
and `some picked` carries the committed color set. `noise` is the
`np.random.normal(0, randomness * 20)` draw. -/
def _apply_personality (base_score : ℚ) (card : Card) (config : BotConfig)
    (context : Option (Finset String)) (noise : ℚ) : Except String ℚ := do
  let score := base_score
  let optimal_adjustment := (100 - base_score) * (1 - config.skill_level) * 0.3
  let score := score + optimal_adjustment
  let score := if rareOrMythicCheck card then score * config.rare_bias else score
  let score := score + noise
  match context with
  | none => pure score
  | some picked_colors => do
      let card_colors ← pySet (card.color_identity.getD (.plist []))
      if picked_colors.card ≠ 0 ∧ card_colors.card ≠ 0 then
        pure (score + ((picked_colors ∩ card_colors).card : ℚ) /
                (card_colors.card : ℚ) * config.color_commitment * 10)
      else
        pure score

/-- A loaded `model_data` bundle (pickled by
`scripts/train_draft_bots.py`, lines 212-219): the opaque regression
model (as the composite `predict(scaled)[0]`), the opaque scaler, and
the personality config. `featureOrder` is the ordered feature-name list
the artifact was trained against; the training script records it in
`metadata.json` (lines 243-245) and the spec carries it as part of the
ScoringArtifact, but `predict_pick_value` never reads it. -/
structure ScoringArtifact where
  base_model : List ℚ → Except String ℚ
  scaler : List ℚ → Except String (List ℚ)
  config : BotConfig
  featureOrder : List String

/-- Replace the declared feature order of an artifact, leaving the
model, scaler and config untouched. -/
def setFeatureOrder (a : ScoringArtifact) (ord : List String) : ScoringArtifact :=
  ⟨a.base_model, a.scaler, a.config, ord⟩

/-- `MLBotService.predict_pick_value` (source lines 104-143). `cache` is
the `loaded_models` entry for the (set, personality) key; `loader` is
the result `load_bot_model` would produce on a cache miss (`none` models
a missing or unreadable pickle, for which `load_bot_model` returns
`False`). `u` is the uniform draw used on the fallback path, `g` the
normal draw used by `_apply_personality` on the model path. -/
def predict_pick_value (cache loader : Option ScoringArtifact) (card : Card)
    (bot_personality : String) (context : Option (Finset String)) (u g : ℚ) :
    Except String ℚ :=
  match cache <|> loader with
  | none => _fallback_evaluation card bot_personality u
  | some model_data => do
      let features ← extract_features card
      let features_scaled ← model_data.scaler features
      let base_score ← model_data.base_model features_scaled
      let adjusted_score ← _apply_personality base_score card model_data.config context g
      pure (npClip adjusted_score 0 100)

/-- Stable descending insertion: `x` is placed before the first element
whose score is at most `x`-s score, so among equal scores earlier input
elements stay first — the behavior of Python-s stable
`list.sort(key=lambda x: x[1], reverse=True)` (source line 228). -/
def insertDesc (x : ℕ × ℚ) : List (ℕ × ℚ) → List (ℕ × ℚ)
  | [] => [x]
  | y :: ys => if y.2 ≤ x.2 then x :: y :: ys else y :: insertDesc x ys

/-- Stable descending-by-score sort. Any stable sort computes the same
function, so this models CPython-s stable sort exactly. -/
def sortDesc : List (ℕ × ℚ) → List (ℕ × ℚ)
  | [] => []
  | x :: xs => insertDesc x (sortDesc xs)

/-- `MLBotService.get_pick_rankings` (source lines 213-230). `scores` is
the list of `predict_pick_value` results, one per card in input order;
the function enumerates them into `(index, score)` pairs and sorts by
score descending with Python-s stable sort. -/
def get_pick_rankings (scores : List ℚ) : List (ℕ × ℚ) :=
  sortDesc scores.enum

/-- The fixed selection weights `[0.6, 0.3, 0.1]` (source line 254). -/
def fixedWeights : List ℚ := [0.6, 0.3, 0.1]

/-- Cumulative sums of a weight list, as `itertools.accumulate` produces
inside `random.choices`. -/
def cumSums (l : List ℚ) : List ℚ := (l.scanl (· + ·) 0).tail

/-- `random.choices(range(len(weights)), weights=weights)[0]` with
uniform draw `u ∈ [0,1)`: CPython computes
`bisect(cum_weights, u * total, 0, len(weights) - 1)`, the number of
cumulative sums among the first `len(weights) - 1` that are at most
`u * total`. -/
def weightedChoiceIdx (weights : List ℚ) (u : ℚ) : ℕ :=
  ((cumSums weights).take (weights.length - 1)).countP
    (fun c => decide (c ≤ u * (cumSums weights).getLastD 0))

/-- The value `choose_pick` returns when the candidate list is empty
(source lines 242-243: `if not rankings: return 0`). -/
def noPickSentinel : ℕ := 0

/-- `MLBotService.choose_pick` (source lines 232-256). `scores` is the
list of per-card scores (as in `get_pick_rankings`), `r` the
`random.random()` draw, `u` the draw consumed by `random.choices`. -/
def choose_pick (scores : List ℚ) (bot_personality : String) (r u : ℚ) : ℕ :=
  let rankings := get_pick_rankings scores
  match rankings with
  | [] => noPickSentinel
  | top :: rest =>
      let config := (BOT_PERSONALITIES bot_personality).getD silverBot
      if r < config.skill_level then top.1
      else
        let pick_range := min 3 (top :: rest).length
        let weights := fixedWeights.take pick_range
        let choice_idx := weightedChoiceIdx weights u
        ((top :: rest).getD choice_idx (0, 0)).1

/-- Spec wording for the rarity ordinal of the Feature Extractor:
common=1, uncommon=2, rare=3, mythic=4, any unknown rarity maps to 1. -/
def rarityOrdinalSpec (s : String) : ℚ :=
  if s = "common" then 1 else if s = "uncommon" then 2
  else if s = "rare" then 3 else if s = "mythic" then 4 else 1

/-- Spec wording for the Fallback Evaluator base score: common=40,
uncommon=55, rare=70, mythic=85, unknown rarity treated as common. -/
def rarityBaseSpec (s : String) : ℚ :=
  if s = "common" then 40 else if s = "uncommon" then 55
  else if s = "rare" then 70 else if s = "mythic" then 85 else 40

/-- Spec wording for the Personality Adjuster, as four steps in a fixed
order: skill regression, rarity bias, additive noise, color-affinity
bonus, with no internal clamping. -/
def adjustSpec (base skill bias commit noise : ℚ)
    (isRare : Bool) (colorCond : Prop) [Decidable colorCond]
    (overlapFrac : ℚ) : ℚ :=
  let s1 := base + (100 - base) * (1 - skill) * 0.3
  let s2 := if isRare then s1 * bias else s1
  let s3 := s2 + noise
  if colorCond then s3 + overlapFrac * commit * 10 else s3

/-- Program counter of one caller racing through the cache-miss path of
`predict_pick_value`/`load_bot_model`. -/
inductive ThreadPC where
  | start
  | loading
  | done
deriving DecidableEq

/-- Shared state of two concurrent callers of `predict_pick_value` for
the same (set, personality) key: whether the `loaded_models` entry is
populated, how many underlying pickle loads have been performed, and
each caller-s position. -/
structure FlightState where
  cached : Bool
  loads : ℕ
  pc1 : ThreadPC
  pc2 : ThreadPC
deriving DecidableEq

/-- Interleaved execution of the source-s check-then-load sequence, one
atomic step per source region. A `check` step is the membership test of
source line 119 together with the `model_path.exists()` test of line 39:
on a hit the caller proceeds with the cached entry, on a miss it commits
to loading. A `load` step is lines 43-51: the pickle is read (one
underlying load) and stored into `loaded_models`. The source takes no
lock anywhere, so both callers may pass their checks before either
stores. -/
inductive CacheStep : FlightState → FlightState → Prop
  | hit1 (l : ℕ) (p2 : ThreadPC) :
      CacheStep ⟨true, l, .start, p2⟩ ⟨true, l, .done, p2⟩
  | miss1 (l : ℕ) (p2 : ThreadPC) :
      CacheStep ⟨false, l, .start, p2⟩ ⟨false, l, .loading, p2⟩
  | load1 (c : Bool) (l : ℕ) (p2 : ThreadPC) :
      CacheStep ⟨c, l, .loading, p2⟩ ⟨true, l + 1, .done, p2⟩
  | hit2 (l : ℕ) (p1 : ThreadPC) :
      CacheStep ⟨true, l, p1, .start⟩ ⟨true, l, p1, .done⟩
  | miss2 (l : ℕ) (p1 : ThreadPC) :
      CacheStep ⟨false, l, p1, .start⟩ ⟨false, l, p1, .loading⟩
  | load2 (c : Bool) (l : ℕ) (p1 : ThreadPC) :
      CacheStep ⟨c, l, p1, .loading⟩ ⟨true, l + 1, p1, .done⟩

/-- A card dictionary with no keys at all. -/
def plainCard : Card := ⟨none, none, none, none, none, none, none⟩

/-- A card whose color list repeats a color. -/
def cardDupColors : Card :=
  ⟨none, none, none, none, none, some (.plist ["W", "W"]), none⟩

/-- A card whose `cmc` value is the non-numeric string `"x"`. -/
def cardBadCmc : Card :=
  ⟨some (.pstr "x"), none, none, none, none, none, none⟩

/-- A card with well-typed `cmc` and `type_line` but malformed power
(the string `"*"`), toughness (a list), rarity absent, and a non-list
color collection (`None`). -/
def cardMalformed : Card :=
  ⟨some (.pnum 3), some (.pstr "Creature Elf"), none,
   some (.pstr "*"), some (.plist []), some .pnone, none⟩

/-- A white-blue rare creature used to exercise the color-affinity
branch. -/
def cardWU : Card :=
  ⟨some (.pnum 2), some (.pstr "Creature"), some (.pstr "rare"),
   some (.pnum 2), some (.pnum 2), some (.plist ["W", "U"]), none⟩

/-- An artifact whose declared feature order is the reverse of the order
the training pipeline records, with a benign identity scaler and a
constant model. -/
def mismatchedArtifact : ScoringArtifact :=
  ⟨fun _ => .ok 50, fun v => .ok v, goldBot,
   ["num_colors", "toughness_num", "power_num", "rarity_score", "is_land",
    "is_artifact", "is_enchantment", "is_sorcery", "is_instant",
    "is_creature", "cmc"]⟩

/-- The feature-name order the training pipeline records in
`metadata.json` (`scripts/train_draft_bots.py`, lines 243-245), which is
the order `extract_features` produces. -/
def trainedFeatureOrder : List String :=
  ["cmc", "is_creature", "is_instant", "is_sorcery", "is_enchantment",
   "is_artifact", "is_land", "rarity_score", "power_num", "toughness_num",
   "num_colors"]

theorem exceptBind_ok {α β : Type} (a : α) (f : α → Except String β) :
    ((Except.ok a : Except String α) >>= f) = f a := rfl

theorem exceptBind_error {α β : Type} (s : String) (f : α → Except String β) :
    ((Except.error s : Except String α) >>= f) = Except.error s := rfl

theorem exceptBind_eq_ok {α β : Type} (e : Except String α)
    (f : α → Except String β) (b : β) :
    (e >>= f) = .ok b ↔ ∃ a, e = .ok a ∧ f a = .ok b := by
  cases e <;> simp [Bind.bind, Except.bind]

theorem exceptDotBind_ok {α β : Type} (a : α) (f : α → Except String β) :
    (Except.ok a : Except String α).bind f = f a := rfl

theorem exceptDotBind_eq_ok {α β : Type} (e : Except String α)
    (f : α → Except String β) (b : β) :
    e.bind f = .ok b ↔ ∃ a, e = .ok a ∧ f a = .ok b := by
  cases e <;> simp [Except.bind]

theorem npClip_bounds (x : ℚ) : 0 ≤ npClip x 0 100 ∧ npClip x 0 100 ≤ 100 := by
  unfold npClip
  constructor
  · exact le_min (by norm_num) (le_max_left 0 x)
  · exact min_le_left 100 _

theorem npClip_of_bounds (x : ℚ) (h0 : 0 ≤ x) (h1 : x ≤ 100) :
    npClip x 0 100 = x := by
  unfold npClip
  rw [max_eq_right h0, min_eq_right h1]

theorem exceptIsOk_iff {α : Type} (e : Except String α) :
    e.isOk = true ↔ ∃ a, e = .ok a := by
  cases e <;> simp [Except.isOk, Except.toBool]

/-- C1 counterexample: on a card whose color list repeats a color, the
last feature is the length of the list (2), not the number of distinct
colors (1). -/
theorem extract_features_duplicate_colors_cex :
    extract_features cardDupColors = .ok [0, 0, 0, 0, 0, 0, 0, 1, 0, 0, 2] ∧
    (["W", "W"] : List String).toFinset.card = 1 ∧ ((2 : ℚ) ≠ 1) := by
  refine ⟨?_, by decide, by norm_num⟩
  simp [extract_features, cardDupColors, pyFloat, pyLower, lowerString,
        rarityMapGet, floatOrZero, colorCountFeature, strContainsSub,
        Bind.bind, Except.bind, pure, Except.pure]

/-- C1 (amended): whenever `extract_features` returns, the result is a
vector of exactly 11 entries in the fixed order: cost value; six 0/1
type indicators by case-insensitive substring test; rarity ordinal
(common=1 … mythic=4, unknown string rarity and absent rarity give 1);
power and toughness as floats defaulting to 0; and the length of the
color collection (duplicates included), 0 when absent or not a list. -/
theorem extract_features_fixed_order (card : Card) (v : List ℚ)
    (h : extract_features card = .ok v) :
    v.length = 11 ∧
    ∃ cmc tl rq,
      pyFloat (card.cmc.getD (PyVal.pnum 0)) = .ok cmc ∧
      pyLower (card.type_line.getD (PyVal.pstr "")) = .ok tl ∧
      rarityMapGet (card.rarity.getD (PyVal.pstr "common")) = .ok rq ∧
      (∀ s, card.rarity = some (PyVal.pstr s) → rq = rarityOrdinalSpec s) ∧
      (card.rarity = none → rq = 1) ∧
      v = [cmc,
           if strContainsSub tl "creature" then 1 else 0,
           if strContainsSub tl "instant" then 1 else 0,
           if strContainsSub tl "sorcery" then 1 else 0,
           if strContainsSub tl "enchantment" then 1 else 0,
           if strContainsSub tl "artifact" then 1 else 0,
           if strContainsSub tl "land" then 1 else 0,
           rq,
           floatOrZero (card.power.getD (PyVal.pnum 0)),
           floatOrZero (card.toughness.getD (PyVal.pnum 0)),
           colorCountFeature (card.color_identity.getD (PyVal.plist []))] := by
  simp only [extract_features, bind] at h
  rw [exceptDotBind_eq_ok] at h
  obtain ⟨cmc, hcmc, h⟩ := h
  rw [exceptDotBind_eq_ok] at h
  obtain ⟨tl, htl, h⟩ := h
  rw [exceptDotBind_eq_ok] at h
  obtain ⟨rq, hrq, h⟩ := h
  simp only [pure, Except.pure, Except.ok.injEq] at h
  subst h
  refine ⟨rfl, cmc, tl, rq, hcmc, htl, hrq, ?_, ?_, rfl⟩
  · intro s hs
    rw [hs] at hrq
    simp only [Option.getD_some, rarityMapGet, Except.ok.injEq] at hrq
    rw [← hrq, rarityOrdinalSpec]
  · intro hs
    rw [hs] at hrq
    simp only [Option.getD_none, rarityMapGet, Except.ok.injEq] at hrq
    simp at hrq
    exact hrq.symm

/-- C1 witness: the shape theorem applied to a concrete creature card
with malformed power/toughness. -/
theorem extract_features_fixed_order_w :
    ([(3 : ℚ), 1, 0, 0, 0, 0, 0, 1, 0, 0, 0] : List ℚ).length = 11 ∧
    ∃ cmc tl rq,
      pyFloat (cardMalformed.cmc.getD (PyVal.pnum 0)) = .ok cmc ∧
      pyLower (cardMalformed.type_line.getD (PyVal.pstr "")) = .ok tl ∧
      rarityMapGet (cardMalformed.rarity.getD (PyVal.pstr "common")) = .ok rq ∧
      (∀ s, cardMalformed.rarity = some (PyVal.pstr s) → rq = rarityOrdinalSpec s) ∧
      (cardMalformed.rarity = none → rq = 1) ∧
      ([(3 : ℚ), 1, 0, 0, 0, 0, 0, 1, 0, 0, 0] : List ℚ) =
        [cmc,
         if strContainsSub tl "creature" then 1 else 0,
         if strContainsSub tl "instant" then 1 else 0,
         if strContainsSub tl "sorcery" then 1 else 0,
         if strContainsSub tl "enchantment" then 1 else 0,
         if strContainsSub tl "artifact" then 1 else 0,
         if strContainsSub tl "land" then 1 else 0,
         rq,
         floatOrZero (cardMalformed.power.getD (PyVal.pnum 0)),
         floatOrZero (cardMalformed.toughness.getD (PyVal.pnum 0)),
         colorCountFeature (cardMalformed.color_identity.getD (PyVal.plist []))] :=
  extract_features_fixed_order cardMalformed [3, 1, 0, 0, 0, 0, 0, 1, 0, 0, 0]
    (by simp [extract_features, cardMalformed, pyFloat, parsePyFloat, pyLower,
              lowerString, rarityMapGet, floatOrZero, colorCountFeature,
              strContainsSub, Bind.bind, Except.bind, pure, Except.pure])

/-- C2 counterexample: a card whose `cmc` is the non-numeric string
`"x"` makes `extract_features` raise (`float` fails outside any
`try/except`), so extraction does not return normally on every
malformed item. -/
theorem extract_features_raises_on_bad_cmc_cex :
    extract_features cardBadCmc = .error "ValueError" := by
  simp [extract_features, cardBadCmc, pyFloat, parsePyFloat,
        Bind.bind, Except.bind]

/-- C2 (amended): `extract_features` returns normally whenever the cost
value is absent or float-convertible, the type classification text is
absent or a string, and the rarity is absent or hashable; malformed
power, toughness and color collections never make it raise. A
non-numeric cost value, a non-string type text, or an unhashable (list)
rarity does raise. -/
theorem extract_features_no_raise (card : Card)
    (hcmc : ∀ v, card.cmc = some v → (pyFloat v).isOk = true)
    (htl : ∀ v, card.type_line = some v → ∃ s, v = PyVal.pstr s)
    (hr : ∀ l, card.rarity ≠ some (PyVal.plist l)) :
    ∃ fv, extract_features card = .ok fv := by
  obtain ⟨c, hc⟩ : ∃ c, pyFloat (card.cmc.getD (PyVal.pnum 0)) = .ok c := by
    cases h : card.cmc with
    | none => exact ⟨0, rfl⟩
    | some v =>
        have := hcmc v h
        rw [exceptIsOk_iff] at this
        simpa [h] using this
  obtain ⟨t, ht⟩ : ∃ t, pyLower (card.type_line.getD (PyVal.pstr "")) = .ok t := by
    cases h : card.type_line with
    | none => exact ⟨"", rfl⟩
    | some v =>
        obtain ⟨s, rfl⟩ := htl v h
        exact ⟨lowerString s, by simp [h, pyLower]⟩
  obtain ⟨rq, hrq⟩ : ∃ rq, rarityMapGet (card.rarity.getD (PyVal.pstr "common")) = .ok rq := by
    cases h : card.rarity with
    | none => exact ⟨1, rfl⟩
    | some v =>
        cases v with
        | pnum q => exact ⟨1, by simp [h, rarityMapGet]⟩
        | pstr s =>
            exact ⟨if s = "common" then 1 else if s = "uncommon" then 2
                   else if s = "rare" then 3 else if s = "mythic" then 4 else 1,
                   by simp [h, rarityMapGet]⟩
        | plist l => exact absurd h (hr l)
        | pnone => exact ⟨1, by simp [h, rarityMapGet]⟩
  refine ⟨[c,
           if strContainsSub t "creature" then 1 else 0,
           if strContainsSub t "instant" then 1 else 0,
           if strContainsSub t "sorcery" then 1 else 0,
           if strContainsSub t "enchantment" then 1 else 0,
           if strContainsSub t "artifact" then 1 else 0,
           if strContainsSub t "land" then 1 else 0,
           rq,
           floatOrZero (card.power.getD (PyVal.pnum 0)),
           floatOrZero (card.toughness.getD (PyVal.pnum 0)),
           colorCountFeature (card.color_identity.getD (PyVal.plist []))], ?_⟩
  simp only [extract_features, bind, hc, ht, hrq, exceptDotBind_ok]
  rfl

/-- C2 witness: extraction succeeds on a card with malformed power
(`"*"`), toughness (a list), missing rarity and a non-list color
collection. -/
theorem extract_features_no_raise_w :
    ∃ fv, extract_features cardMalformed = .ok fv :=
  extract_features_no_raise cardMalformed
    (by intro v hv
        simp [cardMalformed] at hv
        simp [← hv, pyFloat, Except.isOk, Except.toBool])
    (by intro v hv
        simp [cardMalformed] at hv
        exact ⟨"Creature Elf", hv.symm⟩)
    (by intro l
        simp [cardMalformed])

/-- C3: on a cache miss with a failed load, `predict_pick_value` returns
the Fallback Evaluator-s result with no error; the Fallback Evaluator
computes the rarity base (common 40, uncommon 55, rare 70, mythic 85,
unknown treated as common), +5 for a creature, +10 for a removal
keyword, times the personality scalar (bronze 0.8, silver 0.9, gold 1.0,
mythic 1.1, unknown 1.0), plus the uniform draw, clipped to [0,100]; a
common non-creature no-removal card under gold with a draw in [-10,10]
lands in [30,50]. -/
theorem fallback_evaluation_policy (card : Card) (p : String)
    (context : Option (Finset String)) (u g : ℚ) (tl ot : String) (b : ℚ)
    (h1 : rarityScoresGet (card.rarity.getD (PyVal.pstr "common")) = .ok b)
    (h2 : pyLower (card.type_line.getD (PyVal.pstr "")) = .ok tl)
    (h3 : pyLower (card.oracle_text.getD (PyVal.pstr "")) = .ok ot) :
    predict_pick_value none none card p context u g = _fallback_evaluation card p u ∧
    _fallback_evaluation card p u =
      .ok (npClip ((b + (if strContainsSub tl "creature" then 5 else 0) +
                    (if removalWords.any (fun w => strContainsSub ot w) then 10 else 0)) *
                   personality_multipliers p + u) 0 100) ∧
    (∀ s, card.rarity = some (PyVal.pstr s) → b = rarityBaseSpec s) ∧
    (card.rarity = none → b = 40) ∧
    (personality_multipliers "bronze" = 0.8 ∧ personality_multipliers "silver" = 0.9 ∧
     personality_multipliers "gold" = 1 ∧ personality_multipliers "mythic" = 1.1) ∧
    (b = 40 → strContainsSub tl "creature" = false →
     removalWords.any (fun w => strContainsSub ot w) = false → p = "gold" →
     -10 ≤ u → u ≤ 10 →
     ∃ x, _fallback_evaluation card p u = .ok x ∧ 30 ≤ x ∧ x ≤ 50) := by
  have hfb : _fallback_evaluation card p u =
      .ok (npClip ((b + (if strContainsSub tl "creature" then 5 else 0) +
                    (if removalWords.any (fun w => strContainsSub ot w) then 10 else 0)) *
                   personality_multipliers p + u) 0 100) := by
    simp only [_fallback_evaluation, bind, h1, h2, h3, exceptDotBind_ok]
    simp only [pure, Except.pure, Except.ok.injEq]
    congr 1
    split_ifs <;> ring
  refine ⟨rfl, hfb, ?_, ?_, ?_, ?_⟩
  · intro s hs
    rw [hs] at h1
    simp only [Option.getD_some, rarityScoresGet, Except.ok.injEq] at h1
    rw [← h1, rarityBaseSpec]
  · intro hs
    rw [hs] at h1
    simp only [Option.getD_none, rarityScoresGet, Except.ok.injEq] at h1
    simp at h1
    exact h1.symm
  · exact ⟨by simp [personality_multipliers],
           by simp [personality_multipliers],
           by simp [personality_multipliers]; norm_num,
           by simp [personality_multipliers]⟩
  · intro hb hcre hrem hp hu1 hu2
    subst hp
    refine ⟨40 + u, ?_, by linarith, by linarith⟩
    rw [hfb, hb, hcre, hrem]
    simp only [Bool.false_eq_true, if_false]
    have e1 : ((40 : ℚ) + 0 + 0) * personality_multipliers "gold" + u = 40 + u := by
      simp [personality_multipliers]
      norm_num
    rw [e1, npClip_of_bounds (40 + u) (by linarith) (by linarith)]

/-- C3 witness: the fallback policy theorem applied to the empty card
under the gold personality with draw 5, giving a score of 45. -/
theorem fallback_evaluation_policy_w :
    ∃ x, _fallback_evaluation plainCard "gold" 5 = .ok x ∧ 30 ≤ x ∧ x ≤ 50 :=
  (fallback_evaluation_policy plainCard "gold" none 5 0 "" "" 40
      rfl rfl rfl).2.2.2.2.2 rfl (by decide) (by decide) rfl
      (by norm_num) (by norm_num)

/-- C4: `_apply_personality` is exactly the four spec steps in order —
skill regression, rarity bias for rare/mythic, additive noise, and the
color-affinity bonus applied only when both the committed-color set and
the item-s color set are non-empty — with no internal clamping. -/
theorem apply_personality_four_steps (base : ℚ) (card : Card)
    (config : BotConfig) (noise : ℚ) :
    (_apply_personality base card config none noise =
      .ok (adjustSpec base config.skill_level config.rare_bias
             config.color_commitment noise (rareOrMythicCheck card) False 0)) ∧
    (∀ (picked cc : Finset String),
      pySet (card.color_identity.getD (PyVal.plist [])) = .ok cc →
      _apply_personality base card config (some picked) noise =
        .ok (adjustSpec base config.skill_level config.rare_bias
               config.color_commitment noise (rareOrMythicCheck card)
               (picked.card ≠ 0 ∧ cc.card ≠ 0)
               (((picked ∩ cc).card : ℚ) / (cc.card : ℚ)))) := by
  constructor
  · simp only [_apply_personality, adjustSpec, pure, Except.pure, if_false]
  · intro picked cc hcc
    simp only [_apply_personality, bind, hcc, exceptDotBind_ok, adjustSpec]
    split_ifs <;> rfl

/-- C4 witness: the step theorem applied to a concrete rare white-blue
card with one committed color. -/
theorem apply_personality_four_steps_w :
    _apply_personality 50 cardWU silverBot (some {"W"}) 2 =
      .ok (adjustSpec 50 silverBot.skill_level silverBot.rare_bias
             silverBot.color_commitment 2 (rareOrMythicCheck cardWU)
             ((({"W"} : Finset String)).card ≠ 0 ∧
                ((["W", "U"] : List String).toFinset).card ≠ 0)
             (((({"W"} : Finset String) ∩ (["W", "U"] : List String).toFinset).card : ℚ) /
              (((["W", "U"] : List String).toFinset).card : ℚ))) :=
  (apply_personality_four_steps 50 cardWU silverBot 2).2 {"W"}
    (["W", "U"] : List String).toFinset rfl

/-- C5: whatever the artifact-s model outputs and whatever the noise
draws are, a score returned by `predict_pick_value` lies in [0,100]:
the model path clips after personality adjustment and the fallback path
clips before returning. -/
theorem predict_pick_value_in_range (cache loader : Option ScoringArtifact)
    (card : Card) (p : String) (context : Option (Finset String)) (u g x : ℚ)
    (h : predict_pick_value cache loader card p context u g = .ok x) :
    0 ≤ x ∧ x ≤ 100 := by
  unfold predict_pick_value at h
  cases hm : cache <|> loader with
  | none =>
      rw [hm] at h
      simp only [_fallback_evaluation, bind] at h
      rw [exceptDotBind_eq_ok] at h
      obtain ⟨b, -, h⟩ := h
      rw [exceptDotBind_eq_ok] at h
      obtain ⟨tl, -, h⟩ := h
      rw [exceptDotBind_eq_ok] at h
      obtain ⟨ot, -, h⟩ := h
      simp only [pure, Except.pure, Except.ok.injEq] at h
      rw [← h]
      exact npClip_bounds _
  | some md =>
      rw [hm] at h
      simp only [bind] at h
      rw [exceptDotBind_eq_ok] at h
      obtain ⟨fv, -, h⟩ := h
      rw [exceptDotBind_eq_ok] at h
      obtain ⟨fs, -, h⟩ := h
      rw [exceptDotBind_eq_ok] at h
      obtain ⟨bs, -, h⟩ := h
      rw [exceptDotBind_eq_ok] at h
      obtain ⟨adj, -, h⟩ := h
      simp only [pure, Except.pure, Except.ok.injEq] at h
      rw [← h]
      exact npClip_bounds _

/-- C5 witness: the range theorem applied to a concrete fallback
prediction that evaluates to 40. -/
theorem predict_pick_value_in_range_w : (0 : ℚ) ≤ 40 ∧ (40 : ℚ) ≤ 100 :=
  predict_pick_value_in_range none none plainCard "gold" none 0 0 40
    (by simp [predict_pick_value, _fallback_evaluation, plainCard,
              rarityScoresGet, pyLower, lowerString, strContainsSub,
              removalWords, personality_multipliers, npClip,
              Bind.bind, Except.bind, pure, Except.pure]
        norm_num)

/-- Descending-by-score order with ties broken by ascending original
index: the order the ranking claim asserts between consecutive output
pairs. -/
def rankRel (a b : ℕ × ℚ) : Prop := b.2 < a.2 ∨ (a.2 = b.2 ∧ a.1 < b.1)

theorem insertDesc_perm (x : ℕ × ℚ) (l : List (ℕ × ℚ)) :
    List.Perm (insertDesc x l) (x :: l) := by
  induction l with
  | nil => exact List.Perm.refl _
  | cons y ys ih =>
      rw [insertDesc]
      split_ifs
      · exact List.Perm.refl _
      · exact (List.Perm.cons y ih).trans (List.Perm.swap x y ys)

theorem sortDesc_perm (l : List (ℕ × ℚ)) : List.Perm (sortDesc l) l := by
  induction l with
  | nil => exact List.Perm.refl _
  | cons x xs ih => exact (insertDesc_perm x (sortDesc xs)).trans (List.Perm.cons x ih)

theorem mem_insertDesc (x y : ℕ × ℚ) (l : List (ℕ × ℚ)) :
    y ∈ insertDesc x l ↔ y = x ∨ y ∈ l := by
  rw [(insertDesc_perm x l).mem_iff, List.mem_cons]

theorem insertDesc_pairwise (x : ℕ × ℚ) (l : List (ℕ × ℚ))
    (hl : l.Pairwise rankRel) (hx : ∀ y ∈ l, x.1 < y.1) :
    (insertDesc x l).Pairwise rankRel := by
  induction l with
  | nil => simp [insertDesc, rankRel]
  | cons y ys ih =>
      rw [List.pairwise_cons] at hl
      obtain ⟨hy, hys⟩ := hl
      rw [insertDesc]
      split_ifs with hle
      · rw [List.pairwise_cons]
        refine ⟨?_, by rw [List.pairwise_cons]; exact ⟨hy, hys⟩⟩
        intro z hz
        rcases List.mem_cons.mp hz with rfl | hz
        · rcases lt_or_eq_of_le hle with h | h
          · exact Or.inl h
          · exact Or.inr ⟨h.symm, hx z (List.mem_cons_self z ys)⟩
        · rcases hy z hz with h | h
          · exact Or.inl (lt_of_lt_of_le h hle)
          · rcases lt_or_eq_of_le hle with h2 | h2
            · exact Or.inl (by rw [← h.1]; exact h2)
            · exact Or.inr ⟨by rw [← h2]; exact h.1,
                            hx z (List.mem_cons_of_mem y hz)⟩
      · rw [List.pairwise_cons]
        constructor
        · intro z hz
          rcases (mem_insertDesc x z ys).mp hz with rfl | hz
          · exact Or.inl (not_le.mp hle)
          · exact hy z hz
        · exact ih hys (fun z hz => hx z (List.mem_cons_of_mem y hz))

theorem sortDesc_pairwise (l : List (ℕ × ℚ))
    (hl : l.Pairwise (fun a b => a.1 < b.1)) :
    (sortDesc l).Pairwise rankRel := by
  induction l with
  | nil => exact List.Pairwise.nil
  | cons x xs ih =>
      rw [List.pairwise_cons] at hl
      obtain ⟨hx, hxs⟩ := hl
      rw [sortDesc]
      exact insertDesc_pairwise x (sortDesc xs) (ih hxs)
        (fun y hy => hx y ((sortDesc_perm xs).mem_iff.mp hy))

theorem le_fst_of_mem_enumFrom (l : List ℚ) (n : ℕ) (y : ℕ × ℚ)
    (hy : y ∈ l.enumFrom n) : n ≤ y.1 := by
  induction l generalizing n with
  | nil => simp [List.enumFrom] at hy
  | cons x xs ih =>
      simp only [List.enumFrom] at hy
      rcases List.mem_cons.mp hy with rfl | hy
      · exact le_refl n
      · exact le_trans (Nat.le_succ n) (ih (n + 1) hy)

theorem enumFrom_fst_lt (l : List ℚ) (n : ℕ) :
    (l.enumFrom n).Pairwise (fun a b => a.1 < b.1) := by
  induction l generalizing n with
  | nil => exact List.Pairwise.nil
  | cons x xs ih =>
      simp only [List.enumFrom]
      rw [List.pairwise_cons]
      exact ⟨fun y hy => Nat.lt_of_succ_le (le_fst_of_mem_enumFrom xs (n + 1) y hy),
             ih (n + 1)⟩

/-- C6: `get_pick_rankings` returns exactly the `(originalIndex, score)`
pairs of its input (a permutation of the enumeration), ordered so that
each pair beats the next either by strictly larger score or by equal
score and strictly smaller original index — descending by score, stable
on ties. -/
theorem get_pick_rankings_sorted_stable (scores : List ℚ) :
    List.Perm (get_pick_rankings scores) scores.enum ∧
    (get_pick_rankings scores).Pairwise rankRel := by
  refine ⟨sortDesc_perm scores.enum, ?_⟩
  refine sortDesc_pairwise scores.enum ?_
  have := enumFrom_fst_lt scores 0
  simpa [List.enum] using this

/-- C7: on an empty candidate list, `choose_pick` returns the no-pick
sentinel — the source-s `return 0` on empty rankings — and, being a
total function of its draws, never raises. -/
theorem choose_pick_empty_sentinel (p : String) (r u : ℚ) :
    choose_pick [] p r u = noPickSentinel ∧ noPickSentinel = 0 :=
  ⟨rfl, rfl⟩

/-- C8 counterexample: with a cached artifact whose declared feature
order disagrees with the extractor-s order (same length, reversed),
`predict_pick_value` returns a normally computed score — no distinct
contract-mismatch failure is surfaced. -/
theorem predict_no_mismatch_failure_cex :
    mismatchedArtifact.featureOrder ≠ trainedFeatureOrder ∧
    mismatchedArtifact.featureOrder.length = trainedFeatureOrder.length ∧
    (predict_pick_value (some mismatchedArtifact) none plainCard "gold" none 0 0).isOk
      = true := by
  refine ⟨by decide, by decide, ?_⟩
  have h : predict_pick_value (some mismatchedArtifact) none plainCard "gold" none 0 0
      = .ok (npClip (50 + (100 - 50) * (1 - goldBot.skill_level) * 0.3 + 0) 0 100) := by
    simp [predict_pick_value, mismatchedArtifact, extract_features, plainCard,
          pyFloat, pyLower, lowerString, rarityMapGet, floatOrZero,
          colorCountFeature, strContainsSub, _apply_personality,
          rareOrMythicCheck, Bind.bind, Except.bind, pure, Except.pure]
  rw [h]
  rfl

/-- C8 (amended): `predict_pick_value` performs no check of the
artifact-s expected feature order or length against the extractor-s
output: its result is entirely independent of the artifact-s declared
feature order, so an order mismatch of matching length silently yields a
score; only an error raised by the opaque scaler or model itself (for
instance sklearn-s own length check) propagates, undistinguished. -/
theorem predict_ignores_feature_order (a : ScoringArtifact) (ord : List String)
    (loader : Option ScoringArtifact) (card : Card) (p : String)
    (context : Option (Finset String)) (u g : ℚ) :
    predict_pick_value (some (setFeatureOrder a ord)) loader card p context u g =
      predict_pick_value (some a) loader card p context u g := rfl

/-- C9 counterexample: an interleaving in which both callers pass the
cache-membership check before either stores, so each performs its own
underlying load — two loads for one key, not exactly one. -/
theorem duplicate_concurrent_loads_cex :
    Relation.ReflTransGen CacheStep
      ⟨false, 0, ThreadPC.start, ThreadPC.start⟩
      ⟨true, 2, ThreadPC.done, ThreadPC.done⟩ ∧
    (2 : ℕ) ≠ 1 := by
  constructor
  · have s1 := CacheStep.miss1 0 ThreadPC.start
    have s2 := CacheStep.miss2 0 ThreadPC.loading
    have s3 := CacheStep.load1 false 0 ThreadPC.loading
    have s4 := CacheStep.load2 true 1 ThreadPC.done
    exact .head s1 (.head s2 (.head s3 (.single s4)))
  · decide

/-- C9 (amended): the cache is check-then-load with no mutual exclusion
or single-flight: a load is performed by every caller that observed a
miss before any store (so N concurrent misses can perform up to N
loads), and only a caller whose check runs after a completed store is
served from the cache without loading — as in the sequential execution
below, which performs exactly one load. -/
theorem cache_load_not_single_flight :
    Relation.ReflTransGen CacheStep
      ⟨false, 0, ThreadPC.start, ThreadPC.start⟩
      ⟨true, 1, ThreadPC.done, ThreadPC.done⟩ ∧
    (∀ s t : FlightState, CacheStep s t →
      t.loads ≤ s.loads + 1 ∧
      (t.loads = s.loads + 1 →
        s.pc1 = ThreadPC.loading ∨ s.pc2 = ThreadPC.loading)) := by
  constructor
  · have s1 := CacheStep.miss1 0 ThreadPC.start
    have s2 := CacheStep.load1 false 0 ThreadPC.start
    have s3 := CacheStep.hit2 1 ThreadPC.done
    exact .head s1 (.head s2 (.single s3))
  · intro s t h
    cases h <;> simp

/-- C9 witness: the load-accounting part of the amended theorem applied
to a concrete load step. -/
theorem cache_load_not_single_flight_w :
    (⟨true, 1, ThreadPC.done, ThreadPC.start⟩ : FlightState).loads ≤
      (⟨false, 0, ThreadPC.loading, ThreadPC.start⟩ : FlightState).loads + 1 ∧
    ((⟨true, 1, ThreadPC.done, ThreadPC.start⟩ : FlightState).loads =
      (⟨false, 0, ThreadPC.loading, ThreadPC.start⟩ : FlightState).loads + 1 →
      (⟨false, 0, ThreadPC.loading, ThreadPC.start⟩ : FlightState).pc1 = ThreadPC.loading ∨
      (⟨false, 0, ThreadPC.loading, ThreadPC.start⟩ : FlightState).pc2 = ThreadPC.loading) :=
  cache_load_not_single_flight.2
    ⟨false, 0, ThreadPC.loading, ThreadPC.start⟩
    ⟨true, 1, ThreadPC.done, ThreadPC.start⟩
    (CacheStep.load1 false 0 ThreadPC.start)

theorem weightedChoiceIdx_lt (weights : List ℚ) (u : ℚ) (hw : weights ≠ []) :
    weightedChoiceIdx weights u < weights.length := by
  unfold weightedChoiceIdx
  have hc := List.countP_le_length
    (fun c => decide (c ≤ u * (cumSums weights).getLastD 0))
    (l := (cumSums weights).take (weights.length - 1))
  have hl : ((cumSums weights).take (weights.length - 1)).length ≤
      weights.length - 1 := by
    rw [List.length_take]
    exact min_le_left _ _
  have hp : 0 < weights.length := List.length_pos.mpr hw
  omega

/-- C10: with a personality identifier outside the four known ones,
`choose_pick` falls back to the silver profile (skill level 0.5): below
the 0.5 threshold the top-ranked original index is returned, otherwise
the original index at the weighted-choice position among the top
`min 3 n` ranked candidates, with weights `[0.6, 0.3, 0.1]` truncated to
that count — while the Fallback Evaluator maps the same unknown
personality to the neutral multiplier 1. -/
theorem choose_pick_unknown_personality (scores : List ℚ) (p : String) (r u : ℚ)
    (h1 : p ≠ "bronze") (h2 : p ≠ "silver") (h3 : p ≠ "gold") (h4 : p ≠ "mythic")
    (hne : scores ≠ []) :
    choose_pick scores p r u = choose_pick scores "silver" r u ∧
    BOT_PERSONALITIES p = none ∧
    silverBot.skill_level = 0.5 ∧
    personality_multipliers p = 1 ∧
    ∀ top rest, get_pick_rankings scores = top :: rest →
      ((r < silverBot.skill_level → choose_pick scores p r u = top.1) ∧
       (¬ r < silverBot.skill_level →
          weightedChoiceIdx (fixedWeights.take (min 3 scores.length)) u <
            min 3 scores.length ∧
          choose_pick scores p r u =
            ((top :: rest).getD
              (weightedChoiceIdx (fixedWeights.take (min 3 scores.length)) u)
              (0, 0)).1)) := by
  have hBP : BOT_PERSONALITIES p = none := by
    simp [BOT_PERSONALITIES, h1, h2, h3, h4]
  have hs : BOT_PERSONALITIES "silver" = some silverBot := by
    simp [BOT_PERSONALITIES]
  refine ⟨?_, hBP, rfl, ?_, ?_⟩
  · simp only [choose_pick]
    rw [hBP, hs]
    simp only [Option.getD_none, Option.getD_some]
  · simp [personality_multipliers, h1, h2, h3, h4]
    norm_num
  · intro top rest hrank
    have hlen : (top :: rest).length = scores.length := by
      have hpe := (sortDesc_perm scores.enum).length_eq
      rw [get_pick_rankings] at hrank
      rw [hrank] at hpe
      simpa using hpe
    constructor
    · intro hr
      simp only [choose_pick, hrank, hBP, Option.getD_none]
      rw [if_pos hr]
    · intro hr
      have hpos : 0 < scores.length := List.length_pos.mpr hne
      obtain ⟨k, hk⟩ : ∃ k, min 3 scores.length = k + 1 :=
        ⟨min 3 scores.length - 1, by omega⟩
      have htne : fixedWeights.take (min 3 scores.length) ≠ [] := by
        rw [hk]
        simp [fixedWeights]
      have hwlen : (fixedWeights.take (min 3 scores.length)).length =
          min 3 scores.length := by
        simp [fixedWeights, List.length_take]
      refine ⟨?_, ?_⟩
      · have := weightedChoiceIdx_lt (fixedWeights.take (min 3 scores.length)) u htne
        rwa [hwlen] at this
      · simp only [choose_pick, hrank, hBP, Option.getD_none]
        rw [if_neg hr, hlen]

/-- C10 witness: an unknown personality on two candidates behaves as
silver would. -/
theorem choose_pick_unknown_personality_w :
    choose_pick [50, 60] "platinum" (9 / 10) 0 =
      choose_pick [50, 60] "silver" (9 / 10) 0 :=
  (choose_pick_unknown_personality [50, 60] "platinum" (9 / 10) 0
    (by decide) (by decide) (by decide) (by decide) (by simp)).1
